import Mathlib

/-!
Shallow embedding of the monitoring scripts of the Multi-Stage Docker Build
Pipeline repository (`src/monitoring/track-build-time.py` and
`src/monitoring/size-tracker.py`).

Conventions of the embedding:
* Python floats are modelled as exact rationals (`ℚ`).  Every numeric value
  the scripts handle (durations rounded to two decimals, byte counts divided
  by powers of 1024) is a dyadic rational, on which CPython's arithmetic and
  formatting agree with the exact rational computation.
* Python ints are `ℤ`, Python strings are `String`.
* A Python expression `a / b` that can raise `ZeroDivisionError` is modelled
  by `pyDiv`, returning `Option ℚ`; functions whose Python originals can
  raise return `Option` results, `none` meaning an exception escaped.
* The JSON backing file of each tracker is modelled as `Option MiniJson`
  (`none` = file absent); `json.dump`/`json.load` become `encodeHistory` /
  `decodeHistory` over the record shape the scripts produce.
* Console output of the reporting functions is modelled as the list of the
  strings passed to `print`, one list element per `print` call.
-/

/-- Floor of a rational, computably (`q.num / q.den` with integer division,
which for `ℚ`'s positive denominator is the floor).  Used to model Python's
`//` and `%` on numbers. -/
def ratFloor (q : ℚ) : ℤ := q.num / q.den

/-- Python `int(x)` on a number: truncation toward zero. -/
def pyInt (q : ℚ) : ℤ := q.num.tdiv q.den

/-- Python float floor-division `a // b` (result is a float in Python). -/
def pyFloorDiv (a b : ℚ) : ℚ := (ratFloor (a / b) : ℚ)

/-- Python float modulo `a % b` (`a - b * (a // b)`). -/
def pyMod (a b : ℚ) : ℚ := a - b * pyFloorDiv a b

/-- Python true division `a / b`, which raises `ZeroDivisionError` when
`b = 0`; the raise is modelled by `none`. -/
def pyDiv (a b : ℚ) : Option ℚ := if b = 0 then none else some (a / b)

/-- Round a rational to the nearest integer, ties to even — the rounding mode
of CPython's `round` and of float formatting. -/
def roundHalfEven (q : ℚ) : ℤ :=
  let n := ratFloor q
  let frac := q - (n : ℚ)
  if frac < 1/2 then n
  else if 1/2 < frac then n + 1
  else if n % 2 = 0 then n else n + 1

/-- Python `round(x, 2)`. -/
def pyRound2 (q : ℚ) : ℚ := (roundHalfEven (q * 100) : ℚ) / 100

/-- Left-pad a digit string with zeros to the given width. -/
def zeroPad (w : ℕ) (s : String) : String :=
  String.mk (List.replicate (w - s.length) '0') ++ s

/-- Formatting of a non-negative number with `prec` decimal places, rounding
half to even, as CPython's `f"{x:.{prec}f}"` does on the exact value. -/
def fmtFixedNonneg (prec : ℕ) (q : ℚ) : String :=
  let scaled := (roundHalfEven (q * (10 ^ prec : ℕ))).toNat
  let base := 10 ^ prec
  toString (scaled / base) ++ "." ++ zeroPad prec (toString (scaled % base))

/-- Python fixed-point float formatting `f"{x:.{prec}f}"`. -/
def fmtFixed (prec : ℕ) (q : ℚ) : String :=
  if q < 0 then "-" ++ fmtFixedNonneg prec (-q) else fmtFixedNonneg prec q

/-- Python `str(x)` / `f"{x}"` for a float holding a two-decimal value
(`repr` of the float: minimal decimal digits, at least one). -/
def pyStrFloat2 (q : ℚ) : String :=
  let sign := if q < 0 then "-" else ""
  let n := (roundHalfEven ((if q < 0 then -q else q) * 100)).toNat
  let ip := toString (n / 100)
  let fr := n % 100
  if fr = 0 then sign ++ ip ++ ".0"
  else if fr % 10 = 0 then sign ++ ip ++ "." ++ toString (fr / 10)
  else sign ++ ip ++ "." ++ zeroPad 2 (toString fr)

/-- Python `str` of a bool. -/
def pyStrBool (b : Bool) : String := if b then "True" else "False"

/-- Python `str` of an optional int: `None` prints as `"None"`. -/
def pyStrOptInt : Option ℤ → String
  | none => "None"
  | some n => toString n

/-- Python `f"{s:<w}"`: left-justify in a field of width `w`. -/
def pyLjust (s : String) (w : ℕ) : String :=
  s ++ String.mk (List.replicate (w - s.length) ' ')

/-- Repeated character strings used by the report banners (`"=" * 80` etc.). -/
def lineOf (c : Char) (n : ℕ) : String := String.mk (List.replicate n c)

/-- BuildTimeTracker.format_duration: convert seconds to a human-readable
duration (track-build-time.py lines 34-45). -/
def format_duration (seconds : ℚ) : String :=
  if seconds < 60 then fmtFixed 2 seconds ++ "s"
  else if seconds < 3600 then
    let minutes := pyInt (pyFloorDiv seconds 60)
    let secs := pyInt (pyMod seconds 60)
    toString minutes ++ "m " ++ toString secs ++ "s"
  else
    let hours := pyInt (pyFloorDiv seconds 3600)
    let minutes := pyInt (pyFloorDiv (pyMod seconds 3600) 60)
    toString hours ++ "h " ++ toString minutes ++ "m"

/-- Loop body of `get_human_readable_size`: walk the unit ladder, dividing by
1024 until the magnitude drops below 1024 or the ladder is exhausted
(then `TB` is used regardless). -/
def sizeUnitsLoop (size : ℚ) : List String → String
  | [] => fmtFixed 2 size ++ " TB"
  | u :: rest =>
      if size < 1024 then fmtFixed 2 size ++ " " ++ u
      else sizeUnitsLoop (size / 1024) rest

/-- BuildTimeTracker.get_human_readable_size (track-build-time.py lines
129-138): `None` becomes `"N/A"`, otherwise the unit-ladder loop. -/
def get_human_readable_size : Option ℚ → String
  | none => "N/A"
  | some size => sizeUnitsLoop size ["B", "KB", "MB", "GB"]

/-- SizeTracker.get_human_readable_size (size-tracker.py lines 50-56): same
loop, but with no `None` branch — the argument must be a number. -/
def sizeTracker_get_human_readable_size (size : ℚ) : String :=
  sizeUnitsLoop size ["B", "KB", "MB", "GB"]

/-- One record of the build history, with exactly the fields the `entry`
dict of `BuildTimeTracker.track_build` carries (track-build-time.py lines
155-169).  `image_size_bytes` is `None` in Python when `docker inspect`
failed, hence `Option ℤ`. -/
structure Entry where
  timestamp : String
  commit : String
  build_type : String
  image_name : String
  dockerfile : String
  no_cache : Bool
  duration_seconds : ℚ
  duration_human : String
  cache_hits : ℤ
  total_steps : ℤ
  cache_hit_rate : ℚ
  image_size_bytes : Option ℤ
  image_size_human : String
deriving DecidableEq

/-- JSON values as Python's `json` module produces and consumes them; ints
and floats are distinct as in Python. -/
inductive MiniJson where
  | null
  | bool (b : Bool)
  | int (n : ℤ)
  | float (q : ℚ)
  | str (s : String)
  | arr (elems : List MiniJson)
  | obj (fields : List (String × MiniJson))

/-- Key lookup in a JSON object (first match, as Python dicts have unique
keys). -/
def getField : List (String × MiniJson) → String → Option MiniJson
  | [], _ => none
  | (k, v) :: rest, key => if k == key then some v else getField rest key

/-- String payload of a JSON value. -/
def asStr : MiniJson → Option String
  | .str s => some s
  | _ => none

/-- Bool payload of a JSON value. -/
def asBool : MiniJson → Option Bool
  | .bool b => some b
  | _ => none

/-- Int payload of a JSON value. -/
def asInt : MiniJson → Option ℤ
  | .int n => some n
  | _ => none

/-- Float payload of a JSON value. -/
def asFloat : MiniJson → Option ℚ
  | .float q => some q
  | _ => none

/-- Nullable-int payload of a JSON value. -/
def asOptInt : MiniJson → Option (Option ℤ)
  | .null => some none
  | .int n => some (some n)
  | _ => none

/-- JSON encoding of one build record, fields in the insertion order of the
`entry` dict of `track_build` (what `json.dump` writes for it). -/
def encodeEntry (e : Entry) : MiniJson :=
  .obj [("timestamp", .str e.timestamp),
        ("commit", .str e.commit),
        ("build_type", .str e.build_type),
        ("image_name", .str e.image_name),
        ("dockerfile", .str e.dockerfile),
        ("no_cache", .bool e.no_cache),
        ("duration_seconds", .float e.duration_seconds),
        ("duration_human", .str e.duration_human),
        ("cache_hits", .int e.cache_hits),
        ("total_steps", .int e.total_steps),
        ("cache_hit_rate", .float e.cache_hit_rate),
        ("image_size_bytes",
          match e.image_size_bytes with
          | none => .null
          | some n => .int n),
        ("image_size_human", .str e.image_size_human)]

/-- Reading one build record back from its JSON form. -/
def decodeEntry : MiniJson → Option Entry
  | .obj fs => do
      let timestamp ← getField fs "timestamp" >>= asStr
      let commit ← getField fs "commit" >>= asStr
      let build_type ← getField fs "build_type" >>= asStr
      let image_name ← getField fs "image_name" >>= asStr
      let dockerfile ← getField fs "dockerfile" >>= asStr
      let no_cache ← getField fs "no_cache" >>= asBool
      let duration_seconds ← getField fs "duration_seconds" >>= asFloat
      let duration_human ← getField fs "duration_human" >>= asStr
      let cache_hits ← getField fs "cache_hits" >>= asInt
      let total_steps ← getField fs "total_steps" >>= asInt
      let cache_hit_rate ← getField fs "cache_hit_rate" >>= asFloat
      let image_size_bytes ← getField fs "image_size_bytes" >>= asOptInt
      let image_size_human ← getField fs "image_size_human" >>= asStr
      pure { timestamp, commit, build_type, image_name, dockerfile, no_cache,
             duration_seconds, duration_human, cache_hits, total_steps,
             cache_hit_rate, image_size_bytes, image_size_human }
  | _ => none

/-- JSON form of the whole store: `{"builds": [...]}` as `_save_history`
writes it (track-build-time.py lines 29-32). -/
def encodeHistory (builds : List Entry) : MiniJson :=
  .obj [("builds", .arr (builds.map encodeEntry))]

/-- Decoding of a list of records, failing if any element fails. -/
def decodeEntries : List MiniJson → Option (List Entry)
  | [] => some []
  | j :: rest => do
      let e ← decodeEntry j
      let es ← decodeEntries rest
      pure (e :: es)

/-- Decoding of the whole store from its JSON form. -/
def decodeHistory : MiniJson → Option (List Entry)
  | .obj fs =>
      match getField fs "builds" with
      | some (.arr elems) => decodeEntries elems
      | _ => none
  | _ => none

/-- State of one `BuildTimeTracker`: the in-memory list `history["builds"]`
and the backing file (`none` = absent). -/
structure TrackerState where
  mem : List Entry
  disk : Option MiniJson
deriving Inhabited

/-- BuildTimeTracker._load_history (track-build-time.py lines 22-27): absent
file yields the empty history; otherwise the parsed file.  A file whose
content does not decode is the `CorruptStoreError` case, modelled `none`. -/
def load_history : Option MiniJson → Option (List Entry)
  | none => some []
  | some j => decodeHistory j

/-- BuildTimeTracker._save_history (track-build-time.py lines 29-32): write
the full in-memory history to the file.  `writeOk = false` models a failed
write (`PersistenceError`); the code has no error handling there, so on
failure the state is simply left as it was before the write (the in-memory
list is NOT touched either way). -/
def save_history (st : TrackerState) (writeOk : Bool) : TrackerState :=
  if writeOk then { st with disk := some (encodeHistory st.mem) } else st

/-- One append as `track_build` performs it (track-build-time.py lines
171-172): `self.history["builds"].append(entry)` followed by
`self._save_history()`. -/
def append_and_save (st : TrackerState) (e : Entry) (writeOk : Bool) : TrackerState :=
  save_history { st with mem := st.mem ++ [e] } writeOk

/-- A sequence of appends, each with its own write outcome. -/
def runAppends (st : TrackerState) : List (Entry × Bool) → TrackerState
  | [] => st
  | (e, ok) :: rest => runAppends (append_and_save st e ok) rest

/-- Number of records an on-disk file holds (0 for an absent or undecodable
file). -/
def diskRecordCount (d : Option MiniJson) : ℕ :=
  ((d.bind decodeHistory).getD []).length

/-- Number of appends up to and including the last one whose write
succeeded (0 when no write succeeded). -/
def appendsThroughLastSuccess : List (Entry × Bool) → ℕ
  | [] => 0
  | op :: rest =>
      let r := appendsThroughLastSuccess rest
      if r = 0 then (if op.2 then 1 else 0) else r + 1

/-- Outcome that `build_image` returns to `track_build` (track-build-time.py
lines 94-114): the external boundary of §6 of the spec.  `error` is the
tool's stderr, meaningful when `success = false`. -/
structure BuildResult where
  success : Bool
  duration : ℚ
  cache_hits : ℤ
  total_steps : ℤ
  cache_hit_rate : ℚ
  error : String

/-- Result of one `track_build` call: build failed (nothing recorded, the
tool's message carried through), entry created but the save raised, or entry
recorded and persisted. -/
inductive TrackOutcome where
  | buildFailed (msg : String)
  | persistFailed (entry : Entry)
  | recorded (entry : Entry)
deriving DecidableEq

/-- The `entry` dict built by `track_build` (track-build-time.py lines
155-169) from the build outcome, the `docker inspect` size and the call
arguments. -/
def mkEntry (ts : String) (commit_sha : Option String)
    (build_type image_name dockerfile : String) (no_cache : Bool)
    (br : BuildResult) (image_size : Option ℤ) : Entry :=
  { timestamp := ts
    commit := commit_sha.getD "unknown"
    build_type := build_type
    image_name := image_name
    dockerfile := dockerfile
    no_cache := no_cache
    duration_seconds := pyRound2 br.duration
    duration_human := format_duration br.duration
    cache_hits := br.cache_hits
    total_steps := br.total_steps
    cache_hit_rate := pyRound2 br.cache_hit_rate
    image_size_bytes := image_size
    image_size_human := get_human_readable_size (image_size.map fun n => (n : ℚ)) }

/-- BuildTimeTracker.track_build (track-build-time.py lines 140-174): on a
failed build return `None` without touching the history; otherwise build the
entry, append it and save.  `ts` is the creation instant, `image_size` the
inspection result, `writeOk` the fate of the save. -/
def track_build (st : TrackerState) (br : BuildResult) (image_size : Option ℤ)
    (ts : String) (commit_sha : Option String)
    (build_type image_name dockerfile : String) (no_cache : Bool)
    (writeOk : Bool) : TrackerState × TrackOutcome :=
  if br.success then
    let entry := mkEntry ts commit_sha build_type image_name dockerfile no_cache br image_size
    (append_and_save st entry writeOk,
      if writeOk then .recorded entry else .persistFailed entry)
  else (st, .buildFailed br.error)

/-- Records of one build type (`[b for b in builds if b['build_type'] == t]`). -/
def ofBuildType (t : String) (builds : List Entry) : List Entry :=
  builds.filter fun b => b.build_type == t

/-- Durations of a group of records. -/
def durationsOf (l : List Entry) : List ℚ := l.map fun b => b.duration_seconds

/-- Cache-hit rates of a group of records. -/
def cacheRatesOf (l : List Entry) : List ℚ := l.map fun b => b.cache_hit_rate

/-- Mean of a list of numbers as Python computes it, `sum(...) / len(...)`:
raises (is `none`) on an empty list. -/
def meanOf (l : List ℚ) : Option ℚ := pyDiv l.sum (l.length : ℚ)

/-- Python truthiness of the nullable `image_size_bytes` field: `None` and
`0` are falsy, every other int truthy. -/
def sizeTruthy : Option ℤ → Bool
  | none => false
  | some n => n != 0

/-- Sizes that take part in the size averages of `compare_builds`
(track-build-time.py lines 300-301): the generator filter
`if b['image_size_bytes']` keeps exactly the truthy values. -/
def truthySizes (group : List Entry) : List ℤ :=
  (group.filter fun b => sizeTruthy b.image_size_bytes).map fun b =>
    b.image_size_bytes.getD 0

/-- Mean image size of a group in `compare_builds`: sum of the truthy sizes
over their count; raises when no record has a truthy size. -/
def sizeMean (group : List Entry) : Option ℚ :=
  pyDiv ((truthySizes group).sum : ℚ) ((truthySizes group).length : ℚ)

/-- Dashes line `"-" * 80`. -/
def dash80 : String := lineOf '-' 80

/-- Equals line `"=" * 80`. -/
def eq80 : String := lineOf '=' 80

/-- Equals line `"=" * 70`. -/
def eq70 : String := lineOf '=' 70

/-- Multi-stage statistics block of `generate_performance_report`
(track-build-time.py lines 211-231); prints nothing for an empty group. -/
def multiStageSection (multi_stage : List Entry) : Option (List String) :=
  if multi_stage.isEmpty then some [] else do
    let avg_duration ← meanOf (durationsOf multi_stage)
    let avg_cache_rate ← meanOf (cacheRatesOf multi_stage)
    let cached_builds := multi_stage.filter fun b => !b.no_cache
    let no_cache_builds := multi_stage.filter fun b => b.no_cache
    let n := multi_stage.length
    let cachedLines ←
      if cached_builds.isEmpty then some [] else do
        let avg_cached ← meanOf (durationsOf cached_builds)
        some ["  With cache:             " ++ format_duration avg_cached]
    let noCacheLines ←
      if no_cache_builds.isEmpty then some [] else do
        let avg_no_cache ← meanOf (durationsOf no_cache_builds)
        some ["  Without cache:          " ++ format_duration avg_no_cache]
    some (["Multi-Stage Builds:", dash80,
           "  Total builds:           " ++ toString n,
           "  Average duration:       " ++ format_duration avg_duration,
           "  Average cache hit rate: " ++ fmtFixed 1 avg_cache_rate ++ "%"]
          ++ cachedLines ++ noCacheLines ++ [""])

/-- Single-stage statistics block of `generate_performance_report`
(track-build-time.py lines 234-241). -/
def singleStageSection (single_stage : List Entry) : Option (List String) :=
  if single_stage.isEmpty then some [] else do
    let avg_duration ← meanOf (durationsOf single_stage)
    some (["Single-Stage Builds:", dash80,
           "  Total builds:           " ++ toString single_stage.length,
           "  Average duration:       " ++ format_duration avg_duration, ""])

/-- Comparison block of `generate_performance_report` (track-build-time.py
lines 244-255): present only when both groups exist and the single-stage
mean duration strictly exceeds the multi-stage one. -/
def comparisonSection (multi_stage single_stage : List Entry) : Option (List String) :=
  if multi_stage.isEmpty || single_stage.isEmpty then some [] else do
    let multi_avg ← meanOf (durationsOf multi_stage)
    let single_avg ← meanOf (durationsOf single_stage)
    if single_avg > multi_avg then do
      let frac ← pyDiv (single_avg - multi_avg) single_avg
      let improvement := frac * 100
      let time_saved := single_avg - multi_avg
      some ["Build Time Comparison:", dash80,
            "  Multi-stage is " ++ fmtFixed 1 improvement ++ "% faster",
            "  Average time saved: " ++ format_duration time_saved, ""]
    else some []

/-- One data row of the Recent Builds table (track-build-time.py lines
263-270): date is the timestamp cut to 19 characters; the columns are date,
type, duration, cache rate and size — there is no commit column. -/
def buildTrendRow (b : Entry) : String :=
  pyLjust (b.timestamp.take 19) 20 ++ " " ++ pyLjust b.build_type 15 ++ " " ++
    pyLjust b.duration_human 12 ++ " " ++
    pyLjust (fmtFixed 1 b.cache_hit_rate ++ "%") 10 ++ " " ++
    pyLjust b.image_size_human 12

/-- Python's `xs[-5:]`: the last (at most) five elements. -/
def takeLast5 (l : List α) : List α := l.drop (l.length - 5)

/-- Recent Builds block of `generate_performance_report` (track-build-time.py
lines 258-270). -/
def recentBuildsSection (builds : List Entry) : List String :=
  ["Recent Builds (Last 5):", dash80,
   pyLjust "Date" 20 ++ " " ++ pyLjust "Type" 15 ++ " " ++ pyLjust "Duration" 12 ++
     " " ++ pyLjust "Cache" 10 ++ " " ++ pyLjust "Size" 12,
   dash80] ++ (takeLast5 builds).map buildTrendRow

/-- BuildTimeTracker.generate_performance_report (track-build-time.py lines
192-272), as the list of printed lines; `none` would mean an uncaught
exception. -/
def generate_performance_report (builds : List Entry) : Option (List String) :=
  if builds.isEmpty then some ["No historical data available"] else do
    let multi_stage := ofBuildType "multi-stage" builds
    let single_stage := ofBuildType "single-stage" builds
    let s1 ← multiStageSection multi_stage
    let s2 ← singleStageSection single_stage
    let s3 ← comparisonSection multi_stage single_stage
    some (["\n" ++ eq80, "Build Performance Report", eq80,
           "Total Builds Tracked: " ++ toString builds.length, ""]
          ++ s1 ++ s2 ++ s3 ++ recentBuildsSection builds ++ [eq80 ++ "\n"])

/-- BuildTimeTracker.compare_builds (track-build-time.py lines 274-309), as
the list of printed lines.  The size means divide by the number of records
with truthy sizes with no emptiness guard, and the duration improvement
divides by the single-stage mean: `none` models the `ZeroDivisionError`
escaping. -/
def compare_builds (builds : List Entry) : Option (List String) :=
  let multi_stage := ofBuildType "multi-stage" builds
  let single_stage := ofBuildType "single-stage" builds
  if multi_stage.isEmpty || single_stage.isEmpty then
    some ["Need both multi-stage and single-stage builds for comparison"]
  else do
    let multi_avg_duration ← meanOf (durationsOf multi_stage)
    let single_avg_duration ← meanOf (durationsOf single_stage)
    let dfrac ← pyDiv (single_avg_duration - multi_avg_duration) single_avg_duration
    let duration_improvement := dfrac * 100
    let multi_avg_size ← sizeMean multi_stage
    let single_avg_size ← sizeMean single_stage
    let sfrac ← pyDiv (single_avg_size - multi_avg_size) single_avg_size
    let size_reduction := sfrac * 100
    some ["\n" ++ eq70, "Multi-Stage vs Single-Stage Comparison", eq70,
          "\nBuild Duration:",
          "  Multi-Stage:  " ++ format_duration multi_avg_duration,
          "  Single-Stage: " ++ format_duration single_avg_duration,
          "  Improvement:  " ++ fmtFixed 1 duration_improvement ++ "% faster",
          "\nImage Size:",
          "  Multi-Stage:  " ++ get_human_readable_size (some multi_avg_size),
          "  Single-Stage: " ++ get_human_readable_size (some single_avg_size),
          "  Reduction:    " ++ fmtFixed 1 size_reduction ++ "% smaller",
          eq70 ++ "\n"]

/-- Header line of the build-time CSV export, written verbatim by
`export_csv` (track-build-time.py line 318). -/
def csvHeader : String :=
  "timestamp,commit,build_type,image_name,duration_seconds,cache_hits,total_steps,cache_hit_rate,image_size_bytes,no_cache"

/-- One CSV data row, mirroring the ten `f.write` fragments of `export_csv`
(track-build-time.py lines 321-330) with the final newline stripped.  The
record always carries the `image_size_bytes` key, so the `.get(..., 0)`
default never fires and a `None` value prints as `None`. -/
def csvRow (b : Entry) : String :=
  b.timestamp ++ "," ++ b.commit ++ "," ++ b.build_type ++ "," ++ b.image_name ++
    "," ++ pyStrFloat2 b.duration_seconds ++ "," ++ toString b.cache_hits ++ "," ++
    toString b.total_steps ++ "," ++ pyStrFloat2 b.cache_hit_rate ++ "," ++
    pyStrOptInt b.image_size_bytes ++ "," ++ pyStrBool b.no_cache

/-- BuildTimeTracker.export_csv (track-build-time.py lines 311-332) as the
lines of the written file; `none` when the history is empty and no file is
written. -/
def export_csv (builds : List Entry) : Option (List String) :=
  if builds.isEmpty then none else some (csvHeader :: builds.map csvRow)

/-- One record of the size history, with exactly the fields of the `entry`
dict of `SizeTracker.track_images` (size-tracker.py lines 72-90), the three
nested objects flattened into named fields. -/
structure SizeEntry where
  timestamp : String
  commit : String
  multi_image : String
  multi_size_bytes : ℤ
  multi_size_human : String
  single_image : String
  single_size_bytes : ℤ
  single_size_human : String
  reduction_bytes : ℤ
  reduction_human : String
  reduction_percent : ℚ
deriving DecidableEq

/-- JSON encoding of one size record, with the nested `multi_stage` /
`single_stage` / `reduction` objects `track_images` builds. -/
def encodeSizeEntry (e : SizeEntry) : MiniJson :=
  .obj [("timestamp", .str e.timestamp),
        ("commit", .str e.commit),
        ("multi_stage", .obj [("image", .str e.multi_image),
                              ("size_bytes", .int e.multi_size_bytes),
                              ("size_human", .str e.multi_size_human)]),
        ("single_stage", .obj [("image", .str e.single_image),
                               ("size_bytes", .int e.single_size_bytes),
                               ("size_human", .str e.single_size_human)]),
        ("reduction", .obj [("bytes", .int e.reduction_bytes),
                            ("human", .str e.reduction_human),
                            ("percent", .float e.reduction_percent)])]

/-- Reading one size record back from its JSON form. -/
def decodeSizeEntry : MiniJson → Option SizeEntry
  | .obj fs => do
      let timestamp ← getField fs "timestamp" >>= asStr
      let commit ← getField fs "commit" >>= asStr
      let ms ← getField fs "multi_stage"
      let ss ← getField fs "single_stage"
      let red ← getField fs "reduction"
      match ms, ss, red with
      | .obj mfs, .obj sfs, .obj rfs => do
          let multi_image ← getField mfs "image" >>= asStr
          let multi_size_bytes ← getField mfs "size_bytes" >>= asInt
          let multi_size_human ← getField mfs "size_human" >>= asStr
          let single_image ← getField sfs "image" >>= asStr
          let single_size_bytes ← getField sfs "size_bytes" >>= asInt
          let single_size_human ← getField sfs "size_human" >>= asStr
          let reduction_bytes ← getField rfs "bytes" >>= asInt
          let reduction_human ← getField rfs "human" >>= asStr
          let reduction_percent ← getField rfs "percent" >>= asFloat
          pure { timestamp, commit, multi_image, multi_size_bytes, multi_size_human,
                 single_image, single_size_bytes, single_size_human,
                 reduction_bytes, reduction_human, reduction_percent }
      | _, _, _ => none
  | _ => none

/-- JSON form of the size store: `{"entries": [...]}` as the size tracker's
`_save_history` writes it (size-tracker.py lines 28-31). -/
def encodeSizeHistory (entries : List SizeEntry) : MiniJson :=
  .obj [("entries", .arr (entries.map encodeSizeEntry))]

/-- Decoding of a list of size records. -/
def decodeSizeEntries : List MiniJson → Option (List SizeEntry)
  | [] => some []
  | j :: rest => do
      let e ← decodeSizeEntry j
      let es ← decodeSizeEntries rest
      pure (e :: es)

/-- Decoding of the whole size store. -/
def decodeSizeHistory : MiniJson → Option (List SizeEntry)
  | .obj fs =>
      match getField fs "entries" with
      | some (.arr elems) => decodeSizeEntries elems
      | _ => none
  | _ => none

/-- SizeTracker._load_history (size-tracker.py lines 21-26). -/
def sizeLoad_history : Option MiniJson → Option (List SizeEntry)
  | none => some []
  | some j => decodeSizeHistory j

/-- One data row of the Recent History table of the size trend report
(size-tracker.py lines 143-150): date cut to 19 characters in a column of
width 20, commit cut to 10 characters in a column of width 12, the two
human sizes, and the reduction percentage. -/
def sizeTrendRow (e : SizeEntry) : String :=
  pyLjust (e.timestamp.take 19) 20 ++ " " ++ pyLjust (e.commit.take 10) 12 ++ " " ++
    pyLjust e.multi_size_human 15 ++ " " ++ pyLjust e.single_size_human 15 ++ " " ++
    pyLjust (pyStrFloat2 e.reduction_percent ++ "%") 10

/-- Recent History block of `SizeTracker.generate_trend_report`
(size-tracker.py lines 137-152). -/
def recentSizeSection (entries : List SizeEntry) : List String :=
  ["Recent History (Last 5 Builds):", dash80,
   pyLjust "Date" 20 ++ " " ++ pyLjust "Commit" 12 ++ " " ++ pyLjust "Multi-Stage" 15
     ++ " " ++ pyLjust "Single-Stage" 15 ++ " " ++ pyLjust "Reduction" 10,
   dash80] ++ (takeLast5 entries).map sizeTrendRow

/-- Append on `String` is associative (used to regroup report fragments). -/
theorem str_append_assoc (a b c : String) : a ++ b ++ c = a ++ (b ++ c) := by
  apply String.ext
  simp [List.append_assoc]

/-- Unit label at position `k` of the ladder of `get_human_readable_size`. -/
def unitName (k : ℕ) : String := ["B", "KB", "MB", "GB", "TB"].getD k "TB"

/-- Sample record builder for concrete evaluations: one completed build of
the given type, duration, size and commit, as `track_build` would store it. -/
def mkSample (bt : String) (d : ℚ) (size : Option ℤ) (c : String) : Entry :=
  { timestamp := "2024-01-01T00:00:00", commit := c, build_type := bt,
    image_name := "app:latest", dockerfile := "Dockerfile", no_cache := false,
    duration_seconds := d, duration_human := format_duration d,
    cache_hits := 1, total_steps := 2, cache_hit_rate := 50,
    image_size_bytes := size,
    image_size_human := get_human_readable_size (size.map fun n => (n : ℚ)) }

/-- Mean duration of one build-type group, written as the spec writes it
(total division over the group). -/
def groupMeanDuration (t : String) (builds : List Entry) : ℚ :=
  (durationsOf (ofBuildType t builds)).sum / ((ofBuildType t builds).length : ℚ)

/-- Mean image size of one build-type group over its truthy sizes, written
with total division. -/
def groupMeanSize (t : String) (builds : List Entry) : ℚ :=
  ((truthySizes (ofBuildType t builds)).sum : ℚ) /
    ((truthySizes (ofBuildType t builds)).length : ℚ)

/-- Check that no line of a report mentions the letter Z (the letter the
probe commit below is made of). -/
def containsNoZ (l : List String) : Bool := l.all fun s => !(s.contains 'Z')

/-- Probe record whose commit consists only of the letter Z, which occurs in
no other field. -/
def zCommitEntry : Entry := mkSample "multi-stage" 10 none "ZZZZZZZZZZZZ"

/-- Concrete record with a null image size. -/
def nullSizeEntry : Entry := mkSample "multi-stage" 10 none "unknown"

/-- Concrete multi-stage record for the append run below. -/
def ce1 : Entry := mkSample "multi-stage" 10 none "c1"

/-- Concrete single-stage record for the append run below. -/
def ce2 : Entry := mkSample "single-stage" 20 none "c2"

/-- Computable floor agrees with the mathematical floor on `ℚ`. -/
theorem ratFloor_eq_floor (q : ℚ) : ratFloor q = ⌊q⌋ := Rat.floor_def.symm

/-- Python truncation agrees with the floor on non-negative numbers. -/
theorem pyInt_eq_floor {q : ℚ} (h : 0 ≤ q) : pyInt q = ⌊q⌋ := by
  have hnum : 0 ≤ q.num := Rat.num_nonneg.mpr h
  have hden : (0:ℤ) ≤ (q.den : ℤ) := Int.natCast_nonneg _
  rw [pyInt, Int.tdiv_eq_ediv hnum hden, Rat.floor_def]

/-- Python truncation is the identity on integers. -/
theorem pyInt_intCast (n : ℤ) : pyInt (n : ℚ) = n := by
  have h : ((n:ℚ)).num = n := Rat.num_intCast n
  rw [pyInt, h]
  simp [Rat.den_intCast]

/-- Floor of a rational divided by a positive integer is integer division of
the floor. -/
theorem floor_div_intCast (a : ℚ) {n : ℤ} (hn : 0 < n) : ⌊a / (n : ℚ)⌋ = ⌊a⌋ / n := by
  have hn' : (0:ℚ) < (n:ℚ) := by exact_mod_cast hn
  rw [Int.floor_eq_iff]
  constructor
  · rw [le_div_iff₀ hn']
    have h1 : (⌊a⌋ / n) * n ≤ ⌊a⌋ := Int.ediv_mul_le ⌊a⌋ (ne_of_gt hn)
    have h2 : ((⌊a⌋ / n * n : ℤ) : ℚ) ≤ ((⌊a⌋ : ℤ) : ℚ) := Int.cast_le.mpr h1
    calc ((⌊a⌋ / n : ℤ) : ℚ) * (n : ℚ) = ((⌊a⌋ / n * n : ℤ) : ℚ) := by push_cast; ring
    _ ≤ ((⌊a⌋ : ℤ) : ℚ) := h2
    _ ≤ a := Int.floor_le a
  · rw [div_lt_iff₀ hn']
    have h1 : a < (⌊a⌋ : ℚ) + 1 := Int.lt_floor_add_one a
    have h2 : ⌊a⌋ < (⌊a⌋ / n + 1) * n := Int.lt_ediv_add_one_mul_self ⌊a⌋ hn
    have h3 : ⌊a⌋ + 1 ≤ (⌊a⌋ / n + 1) * n := h2
    have h4 : ((⌊a⌋ : ℚ) + 1) ≤ (((⌊a⌋ / n + 1) * n : ℤ) : ℚ) := by exact_mod_cast h3
    calc a < (⌊a⌋ : ℚ) + 1 := h1
    _ ≤ (((⌊a⌋ / n + 1) * n : ℤ) : ℚ) := h4
    _ = ((⌊a⌋ / n : ℤ) : ℚ) * n + n := by push_cast; ring
    _ = ((⌊a⌋ / n : ℤ) + 1) * n := by ring

/-- Python modulo written through the floor. -/
theorem pyMod_eq (d : ℚ) (n : ℤ) : pyMod d (n:ℚ) = d - (n * ⌊d / (n:ℚ)⌋ : ℤ) := by
  rw [pyMod, pyFloorDiv, ratFloor_eq_floor]
  push_cast
  ring

/-- Floor of a Python modulo by a positive integer is the integer modulo of
the floor. -/
theorem floor_pyMod (d : ℚ) {n : ℤ} (hn : 0 < n) : ⌊pyMod d (n:ℚ)⌋ = ⌊d⌋ % n := by
  rw [pyMod_eq, Int.floor_sub_int, floor_div_intCast d hn, Int.emod_def]

/-- A Python modulo by a positive integer is non-negative. -/
theorem pyMod_nonneg (d : ℚ) {n : ℤ} (hn : 0 < n) : 0 ≤ pyMod d (n:ℚ) := by
  have hn' : (0:ℚ) < (n:ℚ) := by exact_mod_cast hn
  rw [pyMod, pyFloorDiv, ratFloor_eq_floor, sub_nonneg]
  calc (n:ℚ) * (⌊d / (n:ℚ)⌋ : ℚ) = (⌊d / (n:ℚ)⌋ : ℚ) * n := by ring
  _ ≤ (d / (n:ℚ)) * n := by
        have := Int.floor_le (d / (n:ℚ))
        exact mul_le_mul_of_nonneg_right this (le_of_lt hn')
  _ = d := div_mul_cancel₀ d (ne_of_gt hn')

/-- Decoding inverts encoding on single build records. -/
theorem decodeEntry_encodeEntry (e : Entry) : decodeEntry (encodeEntry e) = some e := by
  rcases e with ⟨ts, c, bt, im, df, nc, ds, dh, ch, tsn, chr, isb, ish⟩
  cases isb <;>
    simp [decodeEntry, encodeEntry, getField, asStr, asBool, asInt, asFloat, asOptInt, bind]

/-- Decoding inverts encoding on lists of build records. -/
theorem decodeEntries_encode (l : List Entry) : decodeEntries (l.map encodeEntry) = some l := by
  induction l with
  | nil => rfl
  | cons e rest ih => simp [decodeEntries, decodeEntry_encodeEntry, ih, bind]

/-- Decoding inverts encoding on the whole build history. -/
theorem decodeHistory_encodeHistory (l : List Entry) :
    decodeHistory (encodeHistory l) = some l := by
  simp [decodeHistory, encodeHistory, getField, decodeEntries_encode]

/-- Decoding inverts encoding on single size records. -/
theorem decodeSizeEntry_encode (e : SizeEntry) : decodeSizeEntry (encodeSizeEntry e) = some e := by
  rcases e with ⟨ts, c, mi, msb, msh, si, ssb, ssh, rb, rh, rp⟩
  simp [decodeSizeEntry, encodeSizeEntry, getField, asStr, asInt, asFloat, bind]

/-- Decoding inverts encoding on lists of size records. -/
theorem decodeSizeEntries_encode (l : List SizeEntry) :
    decodeSizeEntries (l.map encodeSizeEntry) = some l := by
  induction l with
  | nil => rfl
  | cons e rest ih => simp [decodeSizeEntries, decodeSizeEntry_encode, ih, bind]

/-- Decoding inverts encoding on the whole size history. -/
theorem decodeSizeHistory_encode (l : List SizeEntry) :
    decodeSizeHistory (encodeSizeHistory l) = some l := by
  simp [decodeSizeHistory, encodeSizeHistory, getField, decodeSizeEntries_encode]

/-- Every appended record stays in memory across a run of appends,
regardless of write outcomes. -/
theorem runAppends_mem (st : TrackerState) (ops : List (Entry × Bool)) :
    (runAppends st ops).mem = st.mem ++ ops.map Prod.fst := by
  induction ops generalizing st with
  | nil => simp [runAppends]
  | cons op rest ih =>
      rcases op with ⟨e, ok⟩
      rw [runAppends, ih]
      cases ok <;> simp [append_and_save, save_history]

/-- After a run of appends the disk holds the memory as of the last
successful write (unchanged if no write succeeded). -/
theorem runAppends_disk (st : TrackerState) (ops : List (Entry × Bool)) :
    (runAppends st ops).disk =
      if appendsThroughLastSuccess ops = 0 then st.disk
      else some (encodeHistory (st.mem ++
        ((ops.take (appendsThroughLastSuccess ops)).map Prod.fst))) := by
  induction ops generalizing st with
  | nil => simp [runAppends, appendsThroughLastSuccess]
  | cons op rest ih =>
      rcases op with ⟨e, ok⟩
      rw [runAppends, ih]
      by_cases hr : appendsThroughLastSuccess rest = 0
      · cases ok <;>
          simp [appendsThroughLastSuccess, hr, append_and_save, save_history, List.take]
      · have hstep : appendsThroughLastSuccess ((e, ok) :: rest) =
            appendsThroughLastSuccess rest + 1 := by
          simp [appendsThroughLastSuccess, hr]
        rw [hstep]
        have h2 : appendsThroughLastSuccess rest + 1 ≠ 0 := by omega
        simp only [hr, if_false, h2, ite_false]
        cases ok <;>
          simp [append_and_save, save_history, List.take_cons, List.append_assoc]

/-- Record count of an encoded history. -/
theorem diskRecordCount_encode (l : List Entry) :
    diskRecordCount (some (encodeHistory l)) = l.length := by
  simp [diskRecordCount, decodeHistory_encodeHistory]

/-- The last-success index never exceeds the number of appends. -/
theorem appendsThroughLastSuccess_le (ops : List (Entry × Bool)) :
    appendsThroughLastSuccess ops ≤ ops.length := by
  induction ops with
  | nil => simp [appendsThroughLastSuccess]
  | cons op rest ih =>
      rw [appendsThroughLastSuccess]
      by_cases hr : appendsThroughLastSuccess rest = 0
      · simp only [hr, if_pos, ite_true]
        cases op.2 <;> simp
      · simp only [hr, if_neg, ite_false, List.length_cons]
        omega

/-- Python's mean of a non-empty list evaluates to sum over length. -/
theorem meanOf_eq {l : List ℚ} (h : l ≠ []) : meanOf l = some (l.sum / l.length) := by
  have hl : (l.length : ℚ) ≠ 0 := by
    simpa using fun hc => h (List.length_eq_zero.mp hc)
  simp [meanOf, pyDiv, hl]

/-- The mean of non-negative numbers is non-negative. -/
theorem mean_nonneg {l : List ℚ} (h : ∀ x ∈ l, 0 ≤ x) : 0 ≤ l.sum / l.length :=
  div_nonneg (List.sum_nonneg h) (by positivity)

/-- Duration lists inherit non-negativity from their records. -/
theorem durations_nonneg {l : List Entry} (h : ∀ b ∈ l, 0 ≤ b.duration_seconds) :
    ∀ x ∈ durationsOf l, 0 ≤ x := by
  intro x hx
  rcases List.mem_map.mp hx with ⟨b, hb, rfl⟩
  exact h b hb

/-- Evaluation of the comparison block of the report for non-empty groups
with non-negative durations: the block is present exactly when the
single-stage mean strictly exceeds the multi-stage mean. -/
theorem comparisonSection_eq (multi single : List Entry)
    (hm : multi ≠ []) (hs : single ≠ [])
    (hwm : ∀ b ∈ multi, 0 ≤ b.duration_seconds) :
    comparisonSection multi single =
      some (if (durationsOf multi).sum / (multi.length : ℚ) <
               (durationsOf single).sum / (single.length : ℚ) then
        ["Build Time Comparison:", dash80,
         "  Multi-stage is " ++
           fmtFixed 1 (((durationsOf single).sum / (single.length : ℚ) -
             (durationsOf multi).sum / (multi.length : ℚ)) /
             ((durationsOf single).sum / (single.length : ℚ)) * 100) ++ "% faster",
         "  Average time saved: " ++ format_duration
           ((durationsOf single).sum / (single.length : ℚ) -
             (durationsOf multi).sum / (multi.length : ℚ)), ""]
      else []) := by
  have hm' : multi.isEmpty = false := by simpa [List.isEmpty_iff] using hm
  have hs' : single.isEmpty = false := by simpa [List.isEmpty_iff] using hs
  have hdm : durationsOf multi ≠ [] := by simpa [durationsOf] using hm
  have hds : durationsOf single ≠ [] := by simpa [durationsOf] using hs
  have hlm : (multi.length : ℚ) = ((durationsOf multi).length : ℚ) := by simp [durationsOf]
  have hls : (single.length : ℚ) = ((durationsOf single).length : ℚ) := by simp [durationsOf]
  set ma := (durationsOf multi).sum / ((durationsOf multi).length : ℚ) with hma
  set sa := (durationsOf single).sum / ((durationsOf single).length : ℚ) with hsa
  have hmaN : 0 ≤ ma := mean_nonneg (durations_nonneg hwm)
  rw [comparisonSection]
  rw [hm', hs']
  simp only [Bool.or_self, Bool.false_or, if_false, ite_false]
  rw [meanOf_eq hdm, meanOf_eq hds]
  simp only [Option.bind_eq_bind, Option.some_bind, hlm, hls]
  by_cases hcmp : ma < sa
  · have hsa0 : sa ≠ 0 := by
      intro hz
      rw [hz] at hcmp
      exact absurd hmaN (not_le.mpr hcmp)
    simp only [hcmp, if_pos, gt_iff_lt, ite_true, pyDiv, hsa0, if_neg, ite_false,
      Option.some_bind]
    rfl
  · simp only [gt_iff_lt, hcmp, ite_false, if_neg]
    rfl

/-- The comparison block never raises when durations are non-negative. -/
theorem comparisonSection_isSome (multi single : List Entry)
    (hwm : ∀ b ∈ multi, 0 ≤ b.duration_seconds) :
    (comparisonSection multi single).isSome := by
  by_cases hm : multi = []
  · simp [comparisonSection, hm]
  · by_cases hs : single = []
    · simp [comparisonSection, hm, hs]
    · rw [comparisonSection_eq multi single hm hs hwm]
      rfl

/-- The multi-stage statistics block never raises: every division is guarded
by the emptiness check of its group. -/
theorem multiStageSection_isSome (l : List Entry) : (multiStageSection l).isSome := by
  rw [multiStageSection]
  by_cases h : l.isEmpty
  · simp [h]
  · have hl : l ≠ [] := by simpa [List.isEmpty_iff] using h
    have hd : durationsOf l ≠ [] := by simpa [durationsOf] using hl
    have hc : cacheRatesOf l ≠ [] := by simpa [cacheRatesOf] using hl
    simp only [h, Bool.false_eq_true, if_false, ite_false]
    rw [meanOf_eq hd, meanOf_eq hc]
    by_cases h1 : (List.filter (fun b => !b.no_cache) l).isEmpty
    · by_cases h2 : (List.filter (fun b => b.no_cache) l).isEmpty
      · simp [h1, h2]
      · have hne : durationsOf (List.filter (fun b => b.no_cache) l) ≠ [] := by
          simpa [durationsOf, List.isEmpty_iff] using h2
        simp [h1, h2, meanOf_eq hne]
    · have hne : durationsOf (List.filter (fun b => !b.no_cache) l) ≠ [] := by
        simpa [durationsOf, List.isEmpty_iff] using h1
      by_cases h2 : (List.filter (fun b => b.no_cache) l).isEmpty
      · simp [h1, h2, meanOf_eq hne]
      · have hne2 : durationsOf (List.filter (fun b => b.no_cache) l) ≠ [] := by
          simpa [durationsOf, List.isEmpty_iff] using h2
        simp [h1, h2, meanOf_eq hne, meanOf_eq hne2]

/-- The single-stage statistics block never raises. -/
theorem singleStageSection_isSome (l : List Entry) : (singleStageSection l).isSome := by
  rw [singleStageSection]
  by_cases h : l.isEmpty
  · simp [h]
  · have hl : l ≠ [] := by simpa [List.isEmpty_iff] using h
    have hd : durationsOf l ≠ [] := by simpa [durationsOf] using hl
    simp [h, meanOf_eq hd]

/-- The full performance report never raises when durations are
non-negative, whatever the group shapes and size fields. -/
theorem report_isSome (builds : List Entry)
    (hw : ∀ b ∈ builds, 0 ≤ b.duration_seconds) :
    (generate_performance_report builds).isSome := by
  rw [generate_performance_report]
  by_cases h : builds.isEmpty
  · simp [h]
  · obtain ⟨s1, hs1⟩ := Option.isSome_iff_exists.mp
      (multiStageSection_isSome (ofBuildType "multi-stage" builds))
    obtain ⟨s2, hs2⟩ := Option.isSome_iff_exists.mp
      (singleStageSection_isSome (ofBuildType "single-stage" builds))
    have hwm : ∀ b ∈ ofBuildType "multi-stage" builds, 0 ≤ b.duration_seconds :=
      fun b hb => hw b (List.mem_filter.mp hb).1
    obtain ⟨s3, hs3⟩ := Option.isSome_iff_exists.mp
      (comparisonSection_isSome (ofBuildType "multi-stage" builds)
        (ofBuildType "single-stage" builds) hwm)
    simp [h, hs1, hs2, hs3]

/-- Python's size mean over a group with at least one truthy size. -/
theorem sizeMean_eq {l : List Entry} (h : truthySizes l ≠ []) :
    sizeMean l = some (((truthySizes l).sum : ℚ) / ((truthySizes l).length : ℚ)) := by
  have hl : ((truthySizes l).length : ℚ) ≠ 0 := by
    simpa using fun hc => h (List.length_eq_zero.mp hc)
  simp [sizeMean, pyDiv, hl]

/-- Full evaluation of `compare_builds` when both groups are non-empty, both
have truthy sizes and neither single-stage mean vanishes: the improvement
and reduction lines carry `(meanB - meanA) / meanB * 100`. -/
theorem compare_builds_eq (builds : List Entry)
    (hm : ofBuildType "multi-stage" builds ≠ [])
    (hs : ofBuildType "single-stage" builds ≠ [])
    (hsd : groupMeanDuration "single-stage" builds ≠ 0)
    (hmz : truthySizes (ofBuildType "multi-stage" builds) ≠ [])
    (hsz : truthySizes (ofBuildType "single-stage" builds) ≠ [])
    (hszn : groupMeanSize "single-stage" builds ≠ 0) :
    compare_builds builds =
      some ["\n" ++ eq70, "Multi-Stage vs Single-Stage Comparison", eq70,
            "\nBuild Duration:",
            "  Multi-Stage:  " ++ format_duration (groupMeanDuration "multi-stage" builds),
            "  Single-Stage: " ++ format_duration (groupMeanDuration "single-stage" builds),
            "  Improvement:  " ++ fmtFixed 1
              ((groupMeanDuration "single-stage" builds - groupMeanDuration "multi-stage" builds) /
                groupMeanDuration "single-stage" builds * 100) ++ "% faster",
            "\nImage Size:",
            "  Multi-Stage:  " ++ get_human_readable_size (some (groupMeanSize "multi-stage" builds)),
            "  Single-Stage: " ++ get_human_readable_size (some (groupMeanSize "single-stage" builds)),
            "  Reduction:    " ++ fmtFixed 1
              ((groupMeanSize "single-stage" builds - groupMeanSize "multi-stage" builds) /
                groupMeanSize "single-stage" builds * 100) ++ "% smaller",
            eq70 ++ "\n"] := by
  have hm' : (ofBuildType "multi-stage" builds).isEmpty = false := by
    simpa [List.isEmpty_iff] using hm
  have hs' : (ofBuildType "single-stage" builds).isEmpty = false := by
    simpa [List.isEmpty_iff] using hs
  have hdm : durationsOf (ofBuildType "multi-stage" builds) ≠ [] := by
    simpa [durationsOf] using hm
  have hds : durationsOf (ofBuildType "single-stage" builds) ≠ [] := by
    simpa [durationsOf] using hs
  have hlm : ((ofBuildType "multi-stage" builds).length : ℚ) =
      ((durationsOf (ofBuildType "multi-stage" builds)).length : ℚ) := by simp [durationsOf]
  have hls : ((ofBuildType "single-stage" builds).length : ℚ) =
      ((durationsOf (ofBuildType "single-stage" builds)).length : ℚ) := by simp [durationsOf]
  have hsd' : (durationsOf (ofBuildType "single-stage" builds)).sum /
      ((durationsOf (ofBuildType "single-stage" builds)).length : ℚ) ≠ 0 := by
    rw [groupMeanDuration, hls] at hsd
    exact hsd
  have hszn' : ((truthySizes (ofBuildType "single-stage" builds)).sum : ℚ) /
      ((truthySizes (ofBuildType "single-stage" builds)).length : ℚ) ≠ 0 := by
    rw [groupMeanSize] at hszn
    exact hszn
  rw [compare_builds]
  rw [hm', hs']
  simp only [Bool.or_self, Bool.false_or, if_false, ite_false]
  rw [meanOf_eq hdm, meanOf_eq hds]
  simp only [Option.bind_eq_bind, Option.some_bind]
  rw [show pyDiv ((durationsOf (ofBuildType "single-stage" builds)).sum /
        ((durationsOf (ofBuildType "single-stage" builds)).length : ℚ) -
        (durationsOf (ofBuildType "multi-stage" builds)).sum /
        ((durationsOf (ofBuildType "multi-stage" builds)).length : ℚ))
        ((durationsOf (ofBuildType "single-stage" builds)).sum /
        ((durationsOf (ofBuildType "single-stage" builds)).length : ℚ)) =
      some (((durationsOf (ofBuildType "single-stage" builds)).sum /
        ((durationsOf (ofBuildType "single-stage" builds)).length : ℚ) -
        (durationsOf (ofBuildType "multi-stage" builds)).sum /
        ((durationsOf (ofBuildType "multi-stage" builds)).length : ℚ)) /
        ((durationsOf (ofBuildType "single-stage" builds)).sum /
        ((durationsOf (ofBuildType "single-stage" builds)).length : ℚ)))
    from by unfold pyDiv; rw [if_neg hsd']]
  simp only [Option.some_bind]
  rw [sizeMean_eq hmz, sizeMean_eq hsz]
  simp only [Option.some_bind]
  rw [show pyDiv (((truthySizes (ofBuildType "single-stage" builds)).sum : ℚ) /
        ((truthySizes (ofBuildType "single-stage" builds)).length : ℚ) -
        ((truthySizes (ofBuildType "multi-stage" builds)).sum : ℚ) /
        ((truthySizes (ofBuildType "multi-stage" builds)).length : ℚ))
        (((truthySizes (ofBuildType "single-stage" builds)).sum : ℚ) /
        ((truthySizes (ofBuildType "single-stage" builds)).length : ℚ)) =
      some ((((truthySizes (ofBuildType "single-stage" builds)).sum : ℚ) /
        ((truthySizes (ofBuildType "single-stage" builds)).length : ℚ) -
        ((truthySizes (ofBuildType "multi-stage" builds)).sum : ℚ) /
        ((truthySizes (ofBuildType "multi-stage" builds)).length : ℚ)) /
        (((truthySizes (ofBuildType "single-stage" builds)).sum : ℚ) /
        ((truthySizes (ofBuildType "single-stage" builds)).length : ℚ)))
    from by unfold pyDiv; rw [if_neg hszn']]
  simp only [Option.some_bind]
  rw [groupMeanDuration, groupMeanDuration, groupMeanSize, groupMeanSize, hlm, hls]
  simp

/-- C1 (counterexample): the claim fails on the code.  Starting from an
empty, synced store, an append whose persist fails leaves the record in the
in-memory sequence (no rollback), and after a failed append followed by a
successful one the on-disk record count is 2 although only 1 append
persisted successfully — the failed append's record becomes visible through
the later full-file rewrite. -/
theorem save_failure_count_cex :
    (runAppends ⟨[], some (encodeHistory [])⟩ [(ce1, false)]).mem = [ce1] ∧
    ([ce1] : List Entry) ≠ [] ∧
    diskRecordCount
      (runAppends ⟨[], some (encodeHistory [])⟩ [(ce1, false), (ce2, true)]).disk = 2 ∧
    (List.filter (fun op => op.2) [(ce1, false), (ce2, true)]).length = 1 ∧
    (2 : ℕ) ≠ 1 := by
  refine ⟨?_, ?_, ?_, ?_, ?_⟩ <;> with_unfolding_all decide

/-- C1 (amended): `track_build` appends to the in-memory list before saving
and nothing rolls it back, so after any run of appends the memory holds
every appended record; the on-disk record count equals the number of
appends up to and including the last successful persist; a failed append
taken alone leaves the disk (and its count) unchanged while keeping the
record in memory. -/
theorem append_run_spec :
    ∀ (st : TrackerState) (ops : List (Entry × Bool)),
      st.disk = some (encodeHistory st.mem) →
      (runAppends st ops).mem = st.mem ++ ops.map Prod.fst ∧
      diskRecordCount (runAppends st ops).disk =
        st.mem.length + appendsThroughLastSuccess ops ∧
      ∀ e : Entry, (append_and_save st e false).mem = st.mem ++ [e] ∧
        (append_and_save st e false).disk = st.disk ∧
        diskRecordCount (append_and_save st e false).disk = diskRecordCount st.disk := by
  intro st ops hsync
  refine ⟨runAppends_mem st ops, ?_, ?_⟩
  · rw [runAppends_disk st ops]
    by_cases h : appendsThroughLastSuccess ops = 0
    · simp [h, hsync, diskRecordCount_encode]
    · have hle := appendsThroughLastSuccess_le ops
      simp only [h, if_neg, ite_false, diskRecordCount_encode]
      simp [List.length_take]
      omega
  · intro e
    exact ⟨by simp [append_and_save, save_history],
           by simp [append_and_save, save_history],
           by simp [append_and_save, save_history]⟩

/-- C1 (witness): the amended statement instantiated on one successful
append from the empty synced store. -/
theorem append_run_spec_witness :
    (runAppends ⟨[], some (encodeHistory [])⟩ [(ce1, true)]).mem =
      ([] : List Entry) ++ [(ce1, true)].map Prod.fst ∧
    diskRecordCount (runAppends ⟨[], some (encodeHistory [])⟩ [(ce1, true)]).disk =
      ([] : List Entry).length + appendsThroughLastSuccess [(ce1, true)] ∧
    ∀ e : Entry,
      (append_and_save ⟨[], some (encodeHistory [])⟩ e false).mem = [] ++ [e] ∧
      (append_and_save ⟨[], some (encodeHistory [])⟩ e false).disk =
        some (encodeHistory []) ∧
      diskRecordCount (append_and_save ⟨[], some (encodeHistory [])⟩ e false).disk =
        diskRecordCount (some (encodeHistory [])) :=
  append_run_spec ⟨[], some (encodeHistory [])⟩ [(ce1, true)] rfl

/-- C2 (code bug): the claim states that report and comparison operations
never raise on degenerate histories.  The report part holds — for any
history with non-negative durations `generate_performance_report` completes
— but `compare_builds` divides by the number of records with truthy sizes
without an emptiness guard (track-build-time.py line 300), so on a history
of one multi-stage and one single-stage record whose `image_size_bytes` are
both null it raises `ZeroDivisionError` (modelled `none`) instead of
rendering "N/A". -/
theorem compare_builds_null_sizes_bug :
    compare_builds [mkSample "multi-stage" 10 none "a",
                    mkSample "single-stage" 20 none "b"] = none ∧
    (∀ builds : List Entry, (∀ b ∈ builds, 0 ≤ b.duration_seconds) →
      (generate_performance_report builds).isSome) := by
  constructor
  · with_unfolding_all decide
  · exact report_isSome

/-- C2 (witness): the never-raising report instantiated on a one-record
all-null-size history. -/
theorem compare_builds_null_sizes_bug_witness :
    (∀ b ∈ [mkSample "multi-stage" 10 none "a"], 0 ≤ b.duration_seconds) ∧
    (generate_performance_report [mkSample "multi-stage" 10 none "a"]).isSome := by
  have hw : ∀ b ∈ [mkSample "multi-stage" 10 none "a"], 0 ≤ b.duration_seconds := by
    intro b hb
    rw [List.mem_singleton] at hb
    subst hb
    norm_num [mkSample]
  exact ⟨hw, compare_builds_null_sizes_bug.2 [mkSample "multi-stage" 10 none "a"] hw⟩

/-- C3 (counterexample): the claim fails on the code.  Exporting a history
whose single record has a null `image_size_bytes` puts the string `None`,
not `0`, in the ninth CSV column: the record always carries the key, so the
`.get(..., 0)` default of line 329 never fires for a null value. -/
theorem csv_null_size_cex :
    export_csv [nullSizeEntry] = some [csvHeader, csvRow nullSizeEntry] ∧
    (csvRow nullSizeEntry).splitOn "," =
      ["2024-01-01T00:00:00", "unknown", "multi-stage", "app:latest",
       "10.0", "1", "2", "50.0", "None", "False"] ∧
    "None" ≠ "0" := by
  refine ⟨rfl, ?_, by decide⟩
  with_unfolding_all decide

/-- C3 (amended): for every non-empty history the export writes exactly the
documented header line followed by one row per record in insertion order,
each row the comma-separated fields in the documented order — but a record
whose `image_size_bytes` is null exports as `None` (the `0` default could
only apply to a record lacking the field entirely, which `track_build`
never produces). -/
theorem csv_export_spec :
    (∀ builds : List Entry, builds ≠ [] →
      export_csv builds = some (csvHeader :: builds.map csvRow)) ∧
    csvHeader =
      "timestamp,commit,build_type,image_name,duration_seconds,cache_hits,total_steps,cache_hit_rate,image_size_bytes,no_cache" ∧
    (∀ e : Entry, csvRow e = String.intercalate ","
      [e.timestamp, e.commit, e.build_type, e.image_name, pyStrFloat2 e.duration_seconds,
       toString e.cache_hits, toString e.total_steps, pyStrFloat2 e.cache_hit_rate,
       pyStrOptInt e.image_size_bytes, pyStrBool e.no_cache]) ∧
    (∀ e : Entry, e.image_size_bytes = none → pyStrOptInt e.image_size_bytes = "None") := by
  refine ⟨?_, rfl, ?_, ?_⟩
  · intro builds h
    simp [export_csv, h]
  · intro e
    rfl
  · intro e h
    rw [h]
    rfl

/-- C3 (witness): the amended export statement instantiated on the
one-record null-size history. -/
theorem csv_export_spec_witness :
    export_csv [nullSizeEntry] = some (csvHeader :: [nullSizeEntry].map csvRow) :=
  csv_export_spec.1 [nullSizeEntry] (by simp)

/-- C4: with both groups non-empty and non-negative durations, the summary
report's comparison block is non-empty exactly when
`(meanB - meanA) / meanB * 100` is strictly positive (meanA the multi-stage
mean, meanB the single-stage mean), and then it carries the
"X% faster" line for that value; means 40 vs 50 produce exactly the
"20.0% faster" block, means 60 vs 50 produce the empty block, and the two
quoted improvements evaluate to 20 and -20. -/
theorem comparison_improvement_spec :
    (∀ builds : List Entry, (∀ b ∈ builds, 0 ≤ b.duration_seconds) →
      ofBuildType "multi-stage" builds ≠ [] →
      ofBuildType "single-stage" builds ≠ [] →
      ∃ lines, comparisonSection (ofBuildType "multi-stage" builds)
          (ofBuildType "single-stage" builds) = some lines ∧
        (lines ≠ [] ↔
          0 < (groupMeanDuration "single-stage" builds - groupMeanDuration "multi-stage" builds) /
            groupMeanDuration "single-stage" builds * 100) ∧
        (groupMeanDuration "multi-stage" builds < groupMeanDuration "single-stage" builds →
          ("  Multi-stage is " ++ fmtFixed 1
            ((groupMeanDuration "single-stage" builds - groupMeanDuration "multi-stage" builds) /
              groupMeanDuration "single-stage" builds * 100) ++ "% faster") ∈ lines)) ∧
    comparisonSection [mkSample "multi-stage" 40 none "u"] [mkSample "single-stage" 50 none "u"] =
      some ["Build Time Comparison:", dash80, "  Multi-stage is 20.0% faster",
            "  Average time saved: 10.00s", ""] ∧
    comparisonSection [mkSample "multi-stage" 60 none "u"] [mkSample "single-stage" 50 none "u"] =
      some [] ∧
    ((50 : ℚ) - 40) / 50 * 100 = 20 ∧
    ((50 : ℚ) - 60) / 50 * 100 = -20 := by
  refine ⟨?_, ?_, ?_, by norm_num, by norm_num⟩
  · intro builds hw hm hs
    have hwm : ∀ b ∈ ofBuildType "multi-stage" builds, 0 ≤ b.duration_seconds :=
      fun b hb => hw b (List.mem_filter.mp hb).1
    have hws : ∀ b ∈ ofBuildType "single-stage" builds, 0 ≤ b.duration_seconds :=
      fun b hb => hw b (List.mem_filter.mp hb).1
    refine ⟨_, comparisonSection_eq _ _ hm hs hwm, ?_, ?_⟩
    · simp only [groupMeanDuration]
      set ma := (durationsOf (ofBuildType "multi-stage" builds)).sum /
        ((ofBuildType "multi-stage" builds).length : ℚ) with hmadef
      set sa := (durationsOf (ofBuildType "single-stage" builds)).sum /
        ((ofBuildType "single-stage" builds).length : ℚ) with hsadef
      have hmaN : 0 ≤ ma := by
        rw [hmadef]
        have := mean_nonneg (durations_nonneg hwm)
        simpa [durationsOf] using this
      have hsaN : 0 ≤ sa := by
        rw [hsadef]
        have := mean_nonneg (durations_nonneg hws)
        simpa [durationsOf] using this
      constructor
      · intro hne
        by_cases hcmp : ma < sa
        · have hsa0 : 0 < sa := lt_of_le_of_lt hmaN hcmp
          exact mul_pos (div_pos (sub_pos.mpr hcmp) hsa0) (by norm_num)
        · exact absurd (by simp [hcmp]) hne
      · intro hpos
        by_cases hcmp : ma < sa
        · simp [hcmp]
        · exfalso
          rcases eq_or_lt_of_le hsaN with hz | hgt
          · rw [← hz] at hpos
            simp at hpos
          · have h1 : sa - ma ≤ 0 := sub_nonpos.mpr (not_lt.mp hcmp)
            have h2 : (sa - ma) / sa ≤ 0 :=
              div_nonpos_of_nonpos_of_nonneg h1 hsaN
            nlinarith
    · intro hcmp
      simp only [groupMeanDuration] at hcmp ⊢
      simp [hcmp]
  · with_unfolding_all decide
  · with_unfolding_all decide

/-- C4 (witness): the comparison-block statement instantiated on the
two-record history with mean durations 40 and 50. -/
theorem comparison_improvement_spec_witness :
    ∃ lines, comparisonSection
        (ofBuildType "multi-stage"
          [mkSample "multi-stage" 40 none "u", mkSample "single-stage" 50 none "u"])
        (ofBuildType "single-stage"
          [mkSample "multi-stage" 40 none "u", mkSample "single-stage" 50 none "u"]) =
        some lines ∧
      (lines ≠ [] ↔
        0 < (groupMeanDuration "single-stage"
          [mkSample "multi-stage" 40 none "u", mkSample "single-stage" 50 none "u"] -
          groupMeanDuration "multi-stage"
          [mkSample "multi-stage" 40 none "u", mkSample "single-stage" 50 none "u"]) /
          groupMeanDuration "single-stage"
          [mkSample "multi-stage" 40 none "u", mkSample "single-stage" 50 none "u"] * 100) ∧
      (groupMeanDuration "multi-stage"
          [mkSample "multi-stage" 40 none "u", mkSample "single-stage" 50 none "u"] <
        groupMeanDuration "single-stage"
          [mkSample "multi-stage" 40 none "u", mkSample "single-stage" 50 none "u"] →
        ("  Multi-stage is " ++ fmtFixed 1
          ((groupMeanDuration "single-stage"
            [mkSample "multi-stage" 40 none "u", mkSample "single-stage" 50 none "u"] -
            groupMeanDuration "multi-stage"
            [mkSample "multi-stage" 40 none "u", mkSample "single-stage" 50 none "u"]) /
            groupMeanDuration "single-stage"
            [mkSample "multi-stage" 40 none "u", mkSample "single-stage" 50 none "u"] * 100)
          ++ "% faster") ∈ lines) :=
  comparison_improvement_spec.1
    [mkSample "multi-stage" 40 none "u", mkSample "single-stage" 50 none "u"]
    (by intro b hb; fin_cases hb <;> norm_num [mkSample])
    (by with_unfolding_all decide)
    (by with_unfolding_all decide)

/-- C5 (counterexample): the claim fails on the code for byte counts of a
pebibyte and beyond.  At `b = 1024 ^ 5` no unit of the ladder leaves a
magnitude below 1024 (the TB magnitude is exactly 1024), yet the function
still returns a TB string, so no unit of the ladder satisfies the claimed
"smallest unit with magnitude below 1024" description of the output. -/
theorem human_size_ladder_cex :
    ¬ ∃ k : ℕ, k ≤ 4 ∧ ((1024:ℚ) ^ 5) / 1024 ^ k < 1024 ∧
      get_human_readable_size (some (1024 ^ 5)) =
        fmtFixed 2 (((1024:ℚ) ^ 5) / 1024 ^ k) ++ " " ++ unitName k := by
  rintro ⟨k, hk, hlt, _⟩
  interval_cases k <;> norm_num at hlt

/-- C5 (amended): for non-negative byte counts below `1024 ^ 5` the
formatter uses the smallest unit of the ladder at which the magnitude drops
below 1024, with two decimals; from `1024 ^ 5` on it formats in TB with a
magnitude of at least 1024; `humanSize 0 = "0.00 B"` and a null size
renders as "N/A". -/
theorem human_size_spec :
    (∀ b : ℚ, 0 ≤ b → b < 1024 ^ 5 →
      ∃ k : ℕ, k ≤ 4 ∧ b / 1024 ^ k < 1024 ∧ (∀ j, j < k → 1024 ≤ b / 1024 ^ j) ∧
        get_human_readable_size (some b) = fmtFixed 2 (b / 1024 ^ k) ++ " " ++ unitName k) ∧
    (∀ b : ℚ, 1024 ^ 5 ≤ b →
        1024 ≤ b / 1024 ^ 4 ∧
        get_human_readable_size (some b) = fmtFixed 2 (b / 1024 ^ 4) ++ " TB") ∧
    get_human_readable_size (some 0) = "0.00 B" ∧
    get_human_readable_size none = "N/A" ∧
    (∀ b : ℚ, sizeTracker_get_human_readable_size b = get_human_readable_size (some b)) := by
  have hpos : (0:ℚ) < 1024 := by norm_num
  have div_chain2 : ∀ b : ℚ, b / 1024 / 1024 = b / 1024 ^ 2 := fun b => by
    rw [div_div]; norm_num
  have div_chain3 : ∀ b : ℚ, b / 1024 / 1024 / 1024 = b / 1024 ^ 3 := fun b => by
    rw [div_div, div_div]; norm_num
  have div_chain4 : ∀ b : ℚ, b / 1024 / 1024 / 1024 / 1024 = b / 1024 ^ 4 := fun b => by
    rw [div_div, div_div, div_div]; norm_num
  refine ⟨?_, ?_, by with_unfolding_all decide, rfl, fun b => rfl⟩
  · intro b hb0 hb5
    by_cases h0 : b < 1024
    · refine ⟨0, by norm_num, by simpa using h0, by omega, ?_⟩
      simp [get_human_readable_size, sizeUnitsLoop, h0, unitName]
    · by_cases h1 : b / 1024 < 1024
      · refine ⟨1, by norm_num, by simpa using h1, ?_, ?_⟩
        · intro j hj
          have hj0 : j = 0 := by omega
          subst hj0
          simpa using not_lt.mp h0
        · simp [get_human_readable_size, sizeUnitsLoop, h0, h1, unitName]
      · by_cases h2 : b / 1024 / 1024 < 1024
        · refine ⟨2, by norm_num, by rw [← div_chain2]; simpa using h2, ?_, ?_⟩
          · intro j hj
            interval_cases j
            · simpa using not_lt.mp h0
            · simpa using not_lt.mp h1
          · rw [← div_chain2]
            simp [get_human_readable_size, sizeUnitsLoop, h0, h1, h2, unitName]
        · by_cases h3 : b / 1024 / 1024 / 1024 < 1024
          · refine ⟨3, by norm_num, by rw [← div_chain3]; simpa using h3, ?_, ?_⟩
            · intro j hj
              interval_cases j
              · simpa using not_lt.mp h0
              · simpa using not_lt.mp h1
              · rw [← div_chain2]; simpa using not_lt.mp h2
            · rw [← div_chain3]
              simp [get_human_readable_size, sizeUnitsLoop, h0, h1, h2, h3, unitName]
          · refine ⟨4, by norm_num, ?_, ?_, ?_⟩
            · rw [div_lt_iff₀ (by positivity)]
              calc b < 1024 ^ 5 := hb5
              _ = 1024 * 1024 ^ 4 := by norm_num
            · intro j hj
              interval_cases j
              · simpa using not_lt.mp h0
              · simpa using not_lt.mp h1
              · rw [← div_chain2]; simpa using not_lt.mp h2
              · rw [← div_chain3]; simpa using not_lt.mp h3
            · rw [← div_chain4]
              simp only [get_human_readable_size, sizeUnitsLoop, h0, h1, h2, h3,
                if_false, ite_false, unitName, List.getD, List.getElem?_eq_getElem,
                List.get?_eq_getElem?]
              rw [str_append_assoc]
              rfl
  · intro b hb
    have h0 : ¬ b < 1024 := by
      push_neg
      calc (1024:ℚ) ≤ 1024 ^ 5 := by norm_num
      _ ≤ b := hb
    have h1 : ¬ b / 1024 < 1024 := by
      push_neg
      rw [le_div_iff₀ hpos]
      calc (1024:ℚ) * 1024 ≤ 1024 ^ 5 := by norm_num
      _ ≤ b := hb
    have h2 : ¬ b / 1024 / 1024 < 1024 := by
      push_neg
      rw [div_chain2, le_div_iff₀ (by positivity)]
      calc (1024:ℚ) * 1024 ^ 2 ≤ 1024 ^ 5 := by norm_num
      _ ≤ b := hb
    have h3 : ¬ b / 1024 / 1024 / 1024 < 1024 := by
      push_neg
      rw [div_chain3, le_div_iff₀ (by positivity)]
      calc (1024:ℚ) * 1024 ^ 3 ≤ 1024 ^ 5 := by norm_num
      _ ≤ b := hb
    refine ⟨?_, ?_⟩
    · rw [le_div_iff₀ (by positivity)]
      calc (1024:ℚ) * 1024 ^ 4 = 1024 ^ 5 := by norm_num
      _ ≤ b := hb
    · rw [← div_chain4]
      simp [get_human_readable_size, sizeUnitsLoop, h0, h1, h2, h3]

/-- C5 (witness): the ladder statement instantiated at 2000 bytes. -/
theorem human_size_spec_witness :
    ∃ k : ℕ, k ≤ 4 ∧ (2000:ℚ) / 1024 ^ k < 1024 ∧
      (∀ j, j < k → 1024 ≤ (2000:ℚ) / 1024 ^ j) ∧
      get_human_readable_size (some 2000) =
        fmtFixed 2 ((2000:ℚ) / 1024 ^ k) ++ " " ++ unitName k :=
  human_size_spec.1 2000 (by norm_num) (by norm_num)

/-- C6: for any non-negative duration the formatter renders seconds with
two decimals below one minute, truncated integer minutes with truncated
integer seconds below one hour (`⌊d/60⌋` and `⌊d⌋ % 60`), and truncated
integer hours with truncated integer minutes beyond; the three quoted
examples evaluate as stated. -/
theorem format_duration_spec :
    (∀ d : ℚ, 0 ≤ d →
      format_duration d =
        (if d < 60 then fmtFixed 2 d ++ "s"
         else if d < 3600 then
           toString ⌊d / 60⌋ ++ "m " ++ toString (⌊d⌋ % 60) ++ "s"
         else
           toString ⌊d / 3600⌋ ++ "h " ++ toString (⌊d⌋ % 3600 / 60) ++ "m")) ∧
    format_duration 45 = "45.00s" ∧
    format_duration 125 = "2m 5s" ∧
    format_duration 3725 = "1h 2m" := by
  refine ⟨?_, ?_, ?_, ?_⟩
  · intro d hd
    by_cases h1 : d < 60
    · simp [format_duration, h1]
    · by_cases h2 : d < 3600
      · have hm : pyInt (pyFloorDiv d 60) = ⌊d / 60⌋ := by
          rw [pyFloorDiv, ratFloor_eq_floor, pyInt_intCast]
        have hs : pyInt (pyMod d 60) = ⌊d⌋ % 60 := by
          have h60 : (0:ℤ) < 60 := by norm_num
          have he : pyMod d (60:ℚ) = pyMod d ((60:ℤ):ℚ) := by norm_num
          rw [he, pyInt_eq_floor (pyMod_nonneg d h60), floor_pyMod d h60]
        simp only [format_duration, h1, h2, if_false, if_true, ite_true, ite_false]
        rw [hm, hs]
      · have h3600 : (0:ℤ) < 3600 := by norm_num
        have hh : pyInt (pyFloorDiv d 3600) = ⌊d / 3600⌋ := by
          rw [pyFloorDiv, ratFloor_eq_floor, pyInt_intCast]
        have hm2 : pyInt (pyFloorDiv (pyMod d 3600) 60) = ⌊d⌋ % 3600 / 60 := by
          have h60 : (0:ℤ) < 60 := by norm_num
          have he : pyMod d (3600:ℚ) = pyMod d ((3600:ℤ):ℚ) := by norm_num
          rw [pyFloorDiv, ratFloor_eq_floor, pyInt_intCast]
          have he60 : (60:ℚ) = ((60:ℤ):ℚ) := by norm_num
          rw [he, he60, floor_div_intCast (pyMod d ((3600:ℤ):ℚ)) h60, floor_pyMod d h3600]
        simp only [format_duration, h1, h2, if_false, if_true, ite_true, ite_false]
        rw [hh, hm2]
  · with_unfolding_all decide
  · with_unfolding_all decide
  · with_unfolding_all decide

/-- C6 (witness): the duration statement instantiated at 125.5 seconds. -/
theorem format_duration_spec_witness :
    format_duration (251/2) =
      (if (251/2 : ℚ) < 60 then fmtFixed 2 (251/2 : ℚ) ++ "s"
       else if (251/2 : ℚ) < 3600 then
         toString ⌊(251/2 : ℚ) / 60⌋ ++ "m " ++ toString (⌊(251/2 : ℚ)⌋ % 60) ++ "s"
       else
         toString ⌊(251/2 : ℚ) / 3600⌋ ++ "h " ++
           toString (⌊(251/2 : ℚ)⌋ % 3600 / 60) ++ "m") :=
  format_duration_spec.1 (251/2) (by norm_num)

/-- C7: the save/load pair is a round trip on the record sequence — decoding
the saved build history restores the in-memory list, loading straight after
any successful append reads back exactly the in-memory sequence, and the
size tracker's history round-trips the same way. -/
theorem history_roundtrip_spec :
    (∀ builds : List Entry, load_history (some (encodeHistory builds)) = some builds) ∧
    (∀ (st : TrackerState) (e : Entry),
      load_history (append_and_save st e true).disk = some (append_and_save st e true).mem) ∧
    (∀ entries : List SizeEntry,
      sizeLoad_history (some (encodeSizeHistory entries)) = some entries) := by
  refine ⟨?_, ?_, ?_⟩
  · intro builds
    exact decodeHistory_encodeHistory builds
  · intro st e
    simp [append_and_save, save_history, load_history, decodeHistory_encodeHistory]
  · intro entries
    exact decodeSizeHistory_encode entries

/-- C8: when the external build reports failure, `track_build` neither
creates nor appends a record — memory and disk are exactly as before — and
the outcome surfaced to the caller carries the tool's error message
verbatim. -/
theorem build_failure_no_record_spec :
    ∀ (st : TrackerState) (br : BuildResult) (image_size : Option ℤ)
      (ts : String) (commit_sha : Option String) (bt im df : String) (nc wok : Bool),
      br.success = false →
      (track_build st br image_size ts commit_sha bt im df nc wok).1.mem = st.mem ∧
      (track_build st br image_size ts commit_sha bt im df nc wok).1.disk = st.disk ∧
      (track_build st br image_size ts commit_sha bt im df nc wok).2 =
        TrackOutcome.buildFailed br.error ∧
      ∀ e : Entry,
        (track_build st br image_size ts commit_sha bt im df nc wok).2 ≠
          TrackOutcome.recorded e := by
  intro st br image_size ts commit_sha bt im df nc wok h
  simp [track_build, h]

/-- C8 (witness): the failed-build statement instantiated on a concrete
failing outcome. -/
theorem build_failure_no_record_spec_witness :
    (({ success := false, duration := 3, cache_hits := 0, total_steps := 0,
        cache_hit_rate := 0, error := "docker build failed" } : BuildResult).success
      = false) ∧
    (track_build ⟨[], none⟩
        { success := false, duration := 3, cache_hits := 0, total_steps := 0,
          cache_hit_rate := 0, error := "docker build failed" }
        none "2024-01-01T00:00:00" none "multi-stage" "app:latest" "Dockerfile"
        false true).2 = TrackOutcome.buildFailed "docker build failed" := by
  refine ⟨rfl, ?_⟩
  exact (build_failure_no_record_spec ⟨[], none⟩ _ none "2024-01-01T00:00:00" none
    "multi-stage" "app:latest" "Dockerfile" false true rfl).2.2.1

set_option maxRecDepth 4000 in
/-- C9 (counterexample): the claim fails on the code.  The build-time trend
table has no commit column at all: rendering the performance report for a
record whose commit consists only of the letter Z yields output in which no
line contains a Z, although the claimed commit column — truncated to 10 or
12 characters — would. -/
theorem trend_commit_column_cex :
    (generate_performance_report [zCommitEntry]).map containsNoZ = some true ∧
    zCommitEntry.commit = "ZZZZZZZZZZZZ" ∧
    "ZZZZZZZZZZZZ".take 10 = "ZZZZZZZZZZ" ∧
    "ZZZZZZZZZZ".contains 'Z' = true ∧
    "ZZZZZZZZZZZZ".contains 'Z' = true := by
  refine ⟨?_, ?_, ?_, ?_, ?_⟩ <;> with_unfolding_all decide

/-- C9 (amended): both trend views show exactly the most recent five records
(all of them when fewer than five exist); the build-time table's columns are
date (timestamp truncated to 19 characters in a width-20 column), type,
duration, cache rate and size — with no commit column; the size tracker's
table's columns are date (19/20), commit (truncated to 10 characters in a
width-12 column), the two human sizes and the reduction percentage. -/
theorem trend_view_spec :
    (∀ builds : List Entry, (takeLast5 builds).length = min 5 builds.length) ∧
    (∀ builds : List Entry, builds.length ≤ 5 → takeLast5 builds = builds) ∧
    (∀ builds : List Entry, recentBuildsSection builds =
      ["Recent Builds (Last 5):", dash80,
       pyLjust "Date" 20 ++ " " ++ pyLjust "Type" 15 ++ " " ++ pyLjust "Duration" 12 ++
         " " ++ pyLjust "Cache" 10 ++ " " ++ pyLjust "Size" 12,
       dash80] ++ (takeLast5 builds).map buildTrendRow) ∧
    (∀ b : Entry, buildTrendRow b = pyLjust (b.timestamp.take 19) 20 ++ " " ++
      pyLjust b.build_type 15 ++ " " ++ pyLjust b.duration_human 12 ++ " " ++
      pyLjust (fmtFixed 1 b.cache_hit_rate ++ "%") 10 ++ " " ++
      pyLjust b.image_size_human 12) ∧
    (∀ entries : List SizeEntry, recentSizeSection entries =
      ["Recent History (Last 5 Builds):", dash80,
       pyLjust "Date" 20 ++ " " ++ pyLjust "Commit" 12 ++ " " ++ pyLjust "Multi-Stage" 15
         ++ " " ++ pyLjust "Single-Stage" 15 ++ " " ++ pyLjust "Reduction" 10,
       dash80] ++ (takeLast5 entries).map sizeTrendRow) ∧
    (∀ e : SizeEntry, sizeTrendRow e = pyLjust (e.timestamp.take 19) 20 ++ " " ++
      pyLjust (e.commit.take 10) 12 ++ " " ++ pyLjust e.multi_size_human 15 ++ " " ++
      pyLjust e.single_size_human 15 ++ " " ++
      pyLjust (pyStrFloat2 e.reduction_percent ++ "%") 10) := by
  refine ⟨?_, ?_, fun _ => rfl, fun _ => rfl, fun _ => rfl, fun _ => rfl⟩
  · intro builds
    simp [takeLast5]
    omega
  · intro builds h
    have hz : builds.length - 5 = 0 := by omega
    simp [takeLast5, hz]

/-- C9 (witness): the all-records-when-fewer-than-five statement
instantiated on a one-record history. -/
theorem trend_view_spec_witness :
    [zCommitEntry].length ≤ 5 ∧ takeLast5 [zCommitEntry] = [zCommitEntry] :=
  ⟨by simp, trend_view_spec.2.1 [zCommitEntry] (by simp)⟩

/-- C10: in `compare_builds` the size mean of a group is taken over exactly
the records whose `image_size_bytes` is non-null and non-zero (Python
truthiness of the generator filter), so appending a record with a
zero-byte — or null — measured size changes neither the participating size
list nor the group's size mean. -/
theorem zero_size_excluded_spec :
    (∀ group : List Entry,
      truthySizes group =
        (group.filter fun b =>
          decide (b.image_size_bytes ≠ none ∧ b.image_size_bytes ≠ some 0)).map
          fun b => b.image_size_bytes.getD 0) ∧
    (∀ (group : List Entry) (e : Entry), e.image_size_bytes = some 0 →
      truthySizes (group ++ [e]) = truthySizes group ∧
      sizeMean (group ++ [e]) = sizeMean group) ∧
    (∀ (group : List Entry) (e : Entry), e.image_size_bytes = none →
      truthySizes (group ++ [e]) = truthySizes group ∧
      sizeMean (group ++ [e]) = sizeMean group) := by
  refine ⟨?_, ?_, ?_⟩
  · intro group
    unfold truthySizes
    congr 1
    apply List.filter_congr
    intro b _
    rcases h : b.image_size_bytes with _ | n
    · simp [sizeTruthy, h]
    · rcases eq_or_ne n 0 with h0 | h0 <;> simp [sizeTruthy, h, h0, bne]
  · intro group e he
    have ht : truthySizes (group ++ [e]) = truthySizes group := by
      unfold truthySizes
      rw [List.filter_append]
      simp [sizeTruthy, he]
    exact ⟨ht, by unfold sizeMean; rw [ht]⟩
  · intro group e he
    have ht : truthySizes (group ++ [e]) = truthySizes group := by
      unfold truthySizes
      rw [List.filter_append]
      simp [sizeTruthy, he]
    exact ⟨ht, by unfold sizeMean; rw [ht]⟩

/-- C10 (witness): the zero-size exclusion instantiated on a one-record
group extended by a zero-size record. -/
theorem zero_size_excluded_spec_witness :
    (mkSample "multi-stage" 10 (some 0) "z").image_size_bytes = some 0 ∧
    truthySizes ([mkSample "multi-stage" 10 (some 1024) "a"] ++
        [mkSample "multi-stage" 10 (some 0) "z"]) =
      truthySizes [mkSample "multi-stage" 10 (some 1024) "a"] ∧
    sizeMean ([mkSample "multi-stage" 10 (some 1024) "a"] ++
        [mkSample "multi-stage" 10 (some 0) "z"]) =
      sizeMean [mkSample "multi-stage" 10 (some 1024) "a"] :=
  ⟨rfl, (zero_size_excluded_spec.2.1 [mkSample "multi-stage" 10 (some 1024) "a"]
      (mkSample "multi-stage" 10 (some 0) "z") rfl).1,
    (zero_size_excluded_spec.2.1 [mkSample "multi-stage" 10 (some 1024) "a"]
      (mkSample "multi-stage" 10 (some 0) "z") rfl).2⟩
